import Mathlib

/-!
Verification of the syslog message parser (packages syslogparser, parsercommon,
rfc3164, rfc5424).

The Go code is shallowly embedded: a byte buffer is a `List Nat` of byte
values, the mutable cursor threaded through every scanner becomes an explicit
input/output `Nat`, a Go `(value, error)` pair becomes `Except GoErr value`,
and an unchecked index past the end of the underlying slice (a Go runtime
panic) is modelled by an outer `Option` whose `none` marks the panic.
-/

namespace Syslog

/-- Byte values of a string (the Go code only handles ASCII). -/
def bytes (s : String) : List Nat :=
  s.data.map Char.toNat

/-- Go `buff[i]` on a slice: `none` models the index-out-of-range panic. -/
def byteAt (buff : List Nat) (i : Nat) : Option Nat :=
  buff.get? i

/-- Go slicing `buff[a:b]` (used only with `a ≤ b ≤ len buff`). -/
def slice (buff : List Nat) (a b : Nat) : List Nat :=
  (buff.take b).drop a

/-- parsercommon.IsDigit: c >= '0' && c <= '9'. -/
def isDigit (b : Nat) : Bool :=
  48 ≤ b && b ≤ 57

/-- Numeric value of an ASCII digit byte. -/
def digitVal (b : Nat) : Nat := b - 48

/-- Decimal value of a digit string, accumulated left to right exactly as the
Go scanners do (`acc = acc*10 + digit`). -/
def digitsVal (ds : List Nat) : Nat :=
  ds.foldl (fun a b => a * 10 + digitVal b) 0

/-- bytes.Trim(s, " "): spaces stripped from both ends. -/
def trimSpaces (xs : List Nat) : List Nat :=
  ((xs.dropWhile (fun b => b == 32)).reverse.dropWhile (fun b => b == 32)).reverse

instance {ε α : Type} [DecidableEq ε] [DecidableEq α] : DecidableEq (Except ε α) :=
  fun x y =>
    match x, y with
    | .ok a, .ok b =>
      if h : a = b then isTrue (congrArg Except.ok h)
      else isFalse (fun hc => h (Except.ok.inj hc))
    | .error a, .error b =>
      if h : a = b then isTrue (congrArg Except.error h)
      else isFalse (fun hc => h (Except.error.inj hc))
    | .ok _, .error _ => isFalse (fun hc => Except.noConfusion hc)
    | .error _, .ok _ => isFalse (fun hc => Except.noConfusion hc)

/-- The error values of the parser (parsercommon and rfc5424 packages). -/
inductive GoErr where
  | priorityEmpty
  | priorityNoStart
  | priorityNoEnd
  | priorityTooShort
  | priorityTooLong
  | priorityNonDigit
  | versionNotFound
  | timestampUnknownFormat
  | eol
  | noSpace
  | yearInvalid
  | monthInvalid
  | dayInvalid
  | hourInvalid
  | minuteInvalid
  | secondInvalid
  | secFracInvalid
  | timeZoneInvalid
  | invalidTimeFormat
  | invalidAppName
  | invalidProcId
  | invalidMsgId
  | noStructuredData
  deriving DecidableEq, Repr

/-- parsercommon.Priority: raw value with the derived facility and severity. -/
structure Priority where
  P : Nat
  F : Nat
  S : Nat
  deriving DecidableEq, Repr

/-- Modelled from the spec: parsercommon.NewPriority is absent from src; the
spec's data model says Facility = P div 8 and Severity = P mod 8, and the
in-repo test TestNewPriority pins NewPriority(165) = {P:165, F:20, S:5}. -/
def NewPriority (p : Nat) : Priority :=
  ⟨p, p / 8, p % 8⟩

/-- Digit-and-terminator scan of the priority bracket, `j` bytes past the
opening bracket, `acc` the digits accumulated so far. Mirrors the loop of
ParsePriority: the "no end" check (running past `l`) comes before the
"too long" check (more than 3 digits): `rem` counts the scan window left,
entering at 4 so that `rem = 0` is the source's `j >= 5`. A closing bracket
right after the opening one is "too short", and any byte that is neither the
closing bracket nor a digit is "non digit". -/
def priScan (buff : List Nat) (cursor l : Nat) :
    Nat → Nat → Nat → Option (Except GoErr Priority × Nat)
  | rem, j, acc =>
    if cursor + j ≥ l then some (.error .priorityNoEnd, cursor)
    else
      match rem with
      | 0 => some (.error .priorityTooLong, cursor)
      | rem' + 1 =>
        match byteAt buff (cursor + j) with
        | none => none
        | some b =>
          if b = 62 then
            if j = 1 then some (.error .priorityTooShort, cursor)
            else some (.ok (NewPriority acc), cursor + j + 1)
          else if isDigit b then priScan buff cursor l rem' (j + 1) (acc * 10 + digitVal b)
          else some (.error .priorityNonDigit, cursor)

/-- Modelled from the spec: parsercommon.ParsePriority is absent from src.
Spec §4.1: the scan requires an opening bracket at the cursor, scans up to 5
bytes, fails with empty-input / missing-open / missing-close / too-short /
too-long / non-digit, and on success advances past the closing bracket,
returning the derived Priority. The in-repo tests TestParsePriority pin every
error's cursor at its starting position and the success cursor one past the
closing bracket. -/
def ParsePriority (buff : List Nat) (cursor l : Nat) :
    Option (Except GoErr Priority × Nat) :=
  if l = 0 then some (.error .priorityEmpty, cursor)
  else
    match byteAt buff cursor with
    | none => none
    | some b =>
      if b ≠ 60 then some (.error .priorityNoStart, cursor)
      else priScan buff cursor l 4 1 0

/-- Modelled from the spec: the NO_VERSION sentinel of parsercommon is absent
from src. The version scan can return any single digit 0..9 as a version, so
the sentinel must lie outside that range for the format detector's
`v == NO_VERSION` comparison to be meaningful; it is modelled as -1. -/
def NO_VERSION : Int := -1

/-- Modelled from the spec: parsercommon.ParseVersion is absent from src.
Spec §4.1 says it reads decimal digits at the cursor and reports a sentinel
"no version" on a non-digit; the in-repo tests TestParseVersion pin the exact
contract: cursor at or past the limit yields (NO_VERSION, ErrVersionNotFound)
with the cursor unchanged, otherwise one byte is consumed and a digit yields
its value with no error while a non-digit yields (NO_VERSION, nil error).
Reading a byte inside the limit but past the underlying slice panics. -/
def ParseVersion (buff : List Nat) (cursor l : Nat) :
    Option (Except GoErr Int × Nat) :=
  if cursor ≥ l then some (.error .versionNotFound, cursor)
  else
    match byteAt buff cursor with
    | none => none
    | some b =>
      if isDigit b then some (.ok (Int.ofNat (digitVal b)), cursor + 1)
      else some (.ok NO_VERSION, cursor + 1)

/-- Scan to the next space: first index `to ≥ from` with `buff[to] = ' '`, or
`l` if none occurs before the limit. The fuel argument enters at `l - from`
and mirrors the loop bound `to < l`. Shared by the hostname scan. -/
def spaceTo (buff : List Nat) (l : Nat) : Nat → Nat → Nat
  | 0, t => t
  | fuel + 1, t =>
    if t < l then
      if buff.getD t 0 = 32 then t else spaceTo buff l fuel (t + 1)
    else t

/-- Modelled from the spec: parsercommon.ParseHostname is absent from src.
Spec §4.1: consumes bytes until a space or the limit; never fails — returns
whatever was scanned, including empty. The in-repo tests TestParseHostname pin
the cursor at the terminating space (not past it). -/
def ParseHostname (buff : List Nat) (cursor l : Nat) :
    Except GoErr (List Nat) × Nat :=
  let t := spaceTo buff l (l - cursor) cursor
  (.ok (slice buff cursor t), t)

/-- The classification returned by DetectRFC (src/syslogparser.go). -/
inductive RFC where
  | unknown
  | rfc3164
  | rfc5424
  deriving DecidableEq, Repr

/-- The 10-byte detection loop of DetectRFC (src/syslogparser.go lines 33-43):
scan for a closing bracket; on finding one run the version scan just past it
with limit 10 and stop. The fuel enters at 10 with `i = 0`, so fuel 0 is the
loop running out at `i = 10`; in that case `v` and `err` keep their Go zero
values 0 and nil — the loop body never executed an assignment. Reading
`buff[i]` for `i` past the underlying slice panics (`none`). -/
def detectScan (buff : List Nat) : Nat → Nat → Option (Except GoErr Int)
  | 0, _ => some (.ok 0)
  | fuel + 1, i =>
    match byteAt buff i with
    | none => none
    | some b =>
      if b = 62 then (ParseVersion buff (i + 1) 10).map Prod.fst
      else detectScan buff fuel (i + 1)

/-- DetectRFC (src/syslogparser.go lines 28-54): a version-scan error yields
(RFC_UNKNOWN, err); the NO_VERSION sentinel yields RFC_3164; any other value
— including the zero value 0 left when no closing bracket was found in the
window — yields RFC_5424 with a nil error. -/
def DetectRFC (buff : List Nat) : Option (RFC × Option GoErr) :=
  match detectScan buff 10 0 with
  | none => none
  | some (.error e) => some (.unknown, some e)
  | some (.ok v) =>
    if v = NO_VERSION then some (.rfc3164, none) else some (.rfc5424, none)

/-- The bounded-token loop of parseUpToLen (src/unnamed/part_001 lines
638-663): `for to = cursor; to < max && to < l; to++`, breaking with found at
the first space. Returns (found, to). The fuel enters at `max - t` (the window
width), so the fuel never runs out before the `t < max` test fails; the
`fuel = 0` case repeats the exit of the loop for totality. -/
def utlScan (buff : List Nat) (l mx : Nat) : Nat → Nat → Bool × Nat
  | 0, t => (false, t)
  | fuel + 1, t =>
    if t < mx ∧ t < l then
      if buff.getD t 0 = 32 then (true, t)
      else utlScan buff l mx fuel (t + 1)
    else (false, t)

/-- parseUpToLen (src/unnamed/part_001 lines 638-663): scan at most `maxLen`
bytes for a space; found gives the token before the space with the cursor on
the space, not found gives the supplied error with the cursor at the final
loop position. -/
def parseUpToLen (buff : List Nat) (cursor l maxLen : Nat) (e : GoErr) :
    Except GoErr (List Nat) × Nat :=
  match utlScan buff l (cursor + maxLen) maxLen cursor with
  | (true, t) => (.ok (slice buff cursor t), t)
  | (false, t) => (.error e, t)

/-- parseAppName: APP-NAME = NILVALUE / 1*48PRINTUSASCII (src/unnamed/part_001
lines 301-304). -/
def parseAppName (buff : List Nat) (cursor l : Nat) :
    Except GoErr (List Nat) × Nat :=
  parseUpToLen buff cursor l 48 .invalidAppName

/-- parseProcId: PROCID = NILVALUE / 1*128PRINTUSASCII (src/unnamed/part_001
lines 306-309). -/
def parseProcId (buff : List Nat) (cursor l : Nat) :
    Except GoErr (List Nat) × Nat :=
  parseUpToLen buff cursor l 128 .invalidProcId

/-- parseMsgId: MSGID = NILVALUE / 1*32PRINTUSASCII (src/unnamed/part_001
lines 311-316). -/
def parseMsgId (buff : List Nat) (cursor l : Nat) :
    Except GoErr (List Nat) × Nat :=
  parseUpToLen buff cursor l 32 .invalidMsgId

/-- The digit loop of parseSecFrac (src/unnamed/part_001 lines 500-509):
`for to = from; to < max; to++`, breaking at the limit or at a non-digit.
The fuel enters at 6 (`max - from`). -/
def fracScan (buff : List Nat) (l : Nat) : Nat → Nat → Nat
  | 0, t => t
  | fuel + 1, t =>
    if t ≥ l then t
    else if isDigit (buff.getD t 0) then fracScan buff l fuel (t + 1)
    else t

/-- parseSecFrac (src/unnamed/part_001 lines 493-523): consume 1 to 6 digits;
none at all is ErrSecFracInvalid with the cursor unchanged, otherwise the
cursor moves to the first non-consumed byte. The Go code materialises the
value as float64 via strconv.ParseFloat("0."+sub, 64); the value is modelled
as the exact rational digitsVal(sub) / 10^len(sub) that this decimal string
denotes — the float64 detour is exact for this use: every value here has at
most 6 decimal digits, the nearest float64 sits within 2^-53 < 0.5e-9 of it,
and the later strconv.FormatFloat(·, 'f', 9, 64) in toNSec rounds the float
back to exactly those digits. -/
def parseSecFrac (buff : List Nat) (cursor l : Nat) :
    Except GoErr ℚ × Nat :=
  let t := fracScan buff l 6 cursor
  let sub := slice buff cursor t
  if sub = [] then (.error .secFracInvalid, cursor)
  else (.ok ((digitsVal sub : ℚ) / 10 ^ sub.length), t)

/-- toNSec (src/unnamed/part_001 lines 582-591): the fractional part of the
float is printed with 9 decimal places (strconv.FormatFloat(frac, 'f', 9,
64), correctly rounded) and the digits after "0." are read back as an
integer; on the exact rational model this is rounding sec * 10^9 to the
nearest integer (no tie can occur for inputs with at most 6 decimal
digits, so the half-even tie rule of FormatFloat never fires). -/
def toNSec (sec : ℚ) : Except GoErr ℤ :=
  .ok (round (sec * 10 ^ 9))

/-- The stopping test of the structured-data loop (src/unnamed/part_001 lines
620-627): the byte is a closing bracket and the next position is the limit or
holds a space. -/
def sdStop (buff : List Nat) (l t : Nat) : Bool :=
  buff.getD t 0 == 93 && (t + 1 == l || buff.getD (t + 1) 0 == 32)

/-- The bracket loop of parseStructuredData (src/unnamed/part_001 lines
613-628): `for to = from; to < l; to++` breaking one step after the first
closing bracket whose successor is the limit or a space; `some t` is the Go
loop's final `to = bracketPos + 1` with found set, `none` is the loop running
out. The fuel enters at `l - from`, mirroring `to < l`. -/
def sdScan (buff : List Nat) (l : Nat) : Nat → Nat → Option Nat
  | 0, _ => none
  | fuel + 1, t =>
    if sdStop buff l t then some (t + 1)
    else sdScan buff l fuel (t + 1)

/-- parseStructuredData (src/unnamed/part_001 lines 597-636): the nil marker
is returned as-is; a buffer not starting with an opening bracket is
ErrNoStructuredData; otherwise the bracket scan either yields the raw span
from the opening bracket through the stopping closing bracket with the cursor
just past it, or fails with ErrNoStructuredData leaving the cursor in place.
The initial `buff[*cursor]` read is unchecked in Go and panics past the
underlying slice. -/
def parseStructuredData (buff : List Nat) (cursor l : Nat) :
    Option (Except GoErr (List Nat) × Nat) :=
  match byteAt buff cursor with
  | none => none
  | some b =>
    if b = 45 then some (.ok [45], cursor + 1)
    else if b ≠ 91 then some (.error .noStructuredData, cursor)
    else
      match sdScan buff l (l - cursor) cursor with
      | some t => some (.ok (slice buff cursor t), t)
      | none => some (.error .noStructuredData, cursor)

/-- ASCII lower-casing of one byte; Go's time layout lookup matches month
names case-insensitively. -/
def lowerByte (b : Nat) : Nat :=
  if 65 ≤ b ∧ b ≤ 90 then b + 32 else b

/-- The three-letter month abbreviations of Go's time package, lower-cased. -/
def monthNames : List (List Nat) :=
  [bytes "jan", bytes "feb", bytes "mar", bytes "apr", bytes "may", bytes "jun",
   bytes "jul", bytes "aug", bytes "sep", bytes "oct", bytes "nov", bytes "dec"]

/-- Month number (1..12) of a three-byte abbreviation, case-insensitive. -/
def monthNum (a b c : Nat) : Option Nat :=
  match monthNames.findIdx? (fun m => m == [lowerByte a, lowerByte b, lowerByte c]) with
  | some i => some (i + 1)
  | none => none

/-- Days per month as Go's time.Parse validates them for the zero year of a
yearless layout (year 0 is divisible by 400, hence a leap year: February
admits 29). -/
def daysIn (m : Nat) : Nat :=
  [31, 29, 31, 30, 31, 30, 31, 31, 30, 31, 30, 31].getD (m - 1) 0

/-- Two ASCII digits as a number (Go's getnum with fixed width). -/
def twoDig (a b : Nat) : Option Nat :=
  if isDigit a ∧ isDigit b then some (10 * digitVal a + digitVal b) else none

/-- The components of a Go time.Time value as far as this parser populates
them; the yearless legacy layouts parse to year 0 before the back-fill. -/
structure GoTime where
  year : Nat
  month : Nat
  day : Nat
  hour : Nat
  minute : Nat
  second : Nat
  nsec : Nat
  deriving DecidableEq, Repr

/-- The range validation Go's time.Parse applies to the legacy layouts: hour,
minute and second are checked inline (0-23 / 0-59 / 0-59) and the day is
checked against the month's length in the final date validation. -/
def mkStampIfValid (mo da ho mi se : Nat) : Option GoTime :=
  if 1 ≤ da ∧ da ≤ daysIn mo ∧ ho ≤ 23 ∧ mi ≤ 59 ∧ se ≤ 59 then
    some ⟨0, mo, da, ho, mi, se, 0⟩
  else none

/-- Go time.ParseInLocation with layout "Jan 02 15:04:05" on an exactly
15-byte value: month abbreviation, space, two-digit day (fixed width), space,
then HH:MM:SS at fixed positions. The hour slot is technically of variable
width in Go, but on a 15-byte value any 1-digit hour leaves a trailing byte
that makes Parse fail with "extra text", so fixed positions are exact. -/
def goMatchStamp1 (s : List Nat) : Option GoTime :=
  match s with
  | [a, b, c, sp1, d1, d2, sp2, h1, h2, k1, m1, m2, k2, s1, s2] =>
    match monthNum a b c, twoDig d1 d2, twoDig h1 h2, twoDig m1 m2, twoDig s1 s2 with
    | some mo, some da, some ho, some mi, some se =>
      if sp1 = 32 ∧ sp2 = 32 ∧ k1 = 58 ∧ k2 = 58 then mkStampIfValid mo da ho mi se
      else none
    | _, _, _, _, _ => none
  | _ => none

/-- Go time.ParseInLocation with layout "Jan  2 15:04:05" on an exactly
15-byte value: month abbreviation, two literal spaces, then an unpadded day
and an unpadded hour. Go's getnum reads each unpadded slot greedily as one or
two digits, and the colons, minute and second sit at fixed positions 9-14, so
exactly two width combinations fit 15 bytes with nothing left over: a
one-digit day with a two-digit hour ("Jan  2 15:04:05") or a two-digit day
with a one-digit hour ("Jan  12 1:04:05"); one digit for both leaves a
trailing byte ("extra text") and two digits for both runs out of value, and
greediness means the day takes the second byte whenever it is a digit, which
decides between the two forms. -/
def goMatchStamp2 (s : List Nat) : Option GoTime :=
  match s with
  | [a, b, c, sp1, sp2, p5, p6, p7, p8, k1, m1, m2, k2, s1, s2] =>
    match monthNum a b c, twoDig m1 m2, twoDig s1 s2 with
    | some mo, some mi, some se =>
      if sp1 = 32 ∧ sp2 = 32 ∧ k1 = 58 ∧ k2 = 58 ∧ isDigit p5 then
        if isDigit p6 then
          if p7 = 32 ∧ isDigit p8 then
            mkStampIfValid mo (10 * digitVal p5 + digitVal p6) (digitVal p8) mi se
          else none
        else
          if p6 = 32 ∧ isDigit p7 ∧ isDigit p8 then
            mkStampIfValid mo (digitVal p5) (10 * digitVal p7 + digitVal p8) mi se
          else none
      else none
    | _, _, _ => none
  | _ => none

/-- fixTimestampIfNeeded (src/rfc3164/rfc3164.go lines 313-328): a parsed
year of zero is back-filled with the current calendar year, supplied here as
the explicit parameter `nowYear`. -/
def fixTimestampIfNeeded (nowYear : Nat) (t : GoTime) : GoTime :=
  if t.year = 0 then { t with year := nowYear } else t

/-- The guarded space skip `if cursor < l && buff[cursor] == ' '` used after a
successful timestamp and after the tag. -/
def skipSpaceAt (buff : List Nat) (l c : Nat) : Nat :=
  if c < l ∧ buff.getD c 0 = 32 then c + 1 else c

/-- parseTimestamp (src/rfc3164/rfc3164.go lines 190-241): try the two
15-byte layouts in order, skipping either when fewer than 15 bytes remain
before the limit; the first success wins, the year is back-filled and the
cursor moves 15 bytes and over one following space. On failure the cursor is
set to the absolute position 15 — the length of the last-tried format,
regardless of where the scan started — advanced over a space if one sits
there, and the scan fails with ErrTimestampUnknownFormat. -/
def parseTimestamp3164 (nowYear : Nat) (buff : List Nat) (cursor l : Nat) :
    Except GoErr GoTime × Nat :=
  let sub := slice buff cursor (cursor + 15)
  let try1 : Option GoTime := if cursor + 15 ≤ l then goMatchStamp1 sub else none
  let try2 : Option GoTime := if cursor + 15 ≤ l then goMatchStamp2 sub else none
  match (try1.orElse fun _ => try2) with
  | some ts => (.ok (fixTimestampIfNeeded nowYear ts), skipSpaceAt buff l (cursor + 15))
  | none => (.error .timestampUnknownFormat, skipSpaceAt buff l 15)

/-- The tag loop of parseTag (src/rfc3164/rfc3164.go lines 268-290): an
unbounded `for` that reads `buff[cursor]` with no limit check — running past
the underlying slice is an index-out-of-range panic (`none`). An opening
square bracket records the tag seen so far (`found`), a colon or space ends
the loop returning the recorded tag (or everything before the terminator when
none was recorded) with the cursor just past the terminator. The fuel enters
at `buff.length + 1`, enough to reach the panic. -/
def tagScan (buff : List Nat) (start : Nat) :
    Nat → Nat → Option (List Nat) → Option (List Nat × Nat)
  | 0, _, _ => none
  | fuel + 1, cur, found =>
    match byteAt buff cur with
    | none => none
    | some b =>
      let found' := if b = 91 then some (slice buff start cur) else found
      if b = 58 ∨ b = 32 then
        match found' with
        | some tg => some (tg, cur + 1)
        | none => some (slice buff start cur, cur + 1)
      else tagScan buff start fuel (cur + 1) found'

/-- parseTag (src/rfc3164/rfc3164.go lines 254-297), without the WithTag
override (the claims exercise the scanning path): run the tag loop from the
cursor, then skip one following space if inside the limit. The Go error
result is always nil so only the panic can be abnormal. -/
def parseTag3164 (buff : List Nat) (cursor l : Nat) : Option (List Nat × Nat) :=
  match tagScan buff cursor (buff.length + 1) cursor none with
  | none => none
  | some (tag, c) => some (tag, skipSpaceAt buff l c)

/-- parseContent (src/rfc3164/rfc3164.go lines 299-311): the remainder up to
the limit, trimmed of spaces on both sides; the cursor advances by the length
of the trimmed content (not to the limit). The Go function returns ErrEOL on
every path and the caller treats that value as success, so the model returns
the content directly. -/
def parseContent3164 (buff : List Nat) (cursor l : Nat) : List Nat × Nat :=
  if cursor > l then ([], cursor)
  else
    let content := trimSpaces (slice buff cursor l)
    (content, cursor + content.length)

/-- parsemessage (src/rfc3164/rfc3164.go lines 168-187): tag then content.
parseTag can only end in a panic or a tag; parseContent's ErrEOL is the
benign end-of-input marker that Parse accepts as success. -/
def parsemessage3164 (buff : List Nat) (cursor l : Nat) :
    Option ((List Nat × List Nat) × Nat) :=
  match parseTag3164 buff cursor l with
  | none => none
  | some (tag, c1) =>
    let (content, c2) := parseContent3164 buff c1 l
    some ((tag, content), c2)

/-- parseHeader (src/rfc3164/rfc3164.go lines 141-164): an unchecked
`buff[cursor]` space test (a panic when the cursor sits at the end of the
buffer), then timestamp, then hostname (without the WithHostname override). -/
def parseHeader3164 (nowYear : Nat) (buff : List Nat) (cursor l : Nat) :
    Option (Except GoErr (GoTime × List Nat) × Nat) :=
  match byteAt buff cursor with
  | none => none
  | some b =>
    let c1 := if b = 32 then cursor + 1 else cursor
    match parseTimestamp3164 nowYear buff c1 l with
    | (.error e, c2) => some (.error e, c2)
    | (.ok ts, c2) =>
      match ParseHostname buff c2 l with
      | (.ok h, c3) => some (.ok (ts, h), c3)
      | (.error e, c3) => some (.error e, c3)

/-- rfc3164.MAX_PACKET_LEN. -/
def MAX_PACKET_LEN_3164 : Nat := 2048

/-- The field set Dump exposes for a legacy message (src/rfc3164/rfc3164.go
lines 117-127). -/
structure Fields3164 where
  timestamp : GoTime
  hostname : List Nat
  tag : List Nat
  content : List Nat
  priority : Nat
  facility : Nat
  severity : Nat
  deriving DecidableEq, Repr

/-- Parse (src/rfc3164/rfc3164.go lines 86-115) on a fresh NewParser without
overrides: the limit is min(len, MAX_PACKET_LEN); priority, then header, then
an unchecked `buff[cursor]` space test (line 103 — a panic when the header
consumed the whole buffer), then tag and content. `none` is a runtime panic,
`some (.error e)` a returned error, `some (.ok f)` the successful field
set. -/
def Parse3164 (nowYear : Nat) (buff : List Nat) : Option (Except GoErr Fields3164) :=
  let l := min buff.length MAX_PACKET_LEN_3164
  match ParsePriority buff 0 l with
  | none => none
  | some (.error e, _) => some (.error e)
  | some (.ok pri, c1) =>
    match parseHeader3164 nowYear buff c1 l with
    | none => none
    | some (.error e, _) => some (.error e)
    | some (.ok (ts, host), c2) =>
      match byteAt buff c2 with
      | none => none
      | some b =>
        let c3 := if b = 32 then c2 + 1 else c2
        match parsemessage3164 buff c3 l with
        | none => none
        | some ((tag, content), _) =>
          some (.ok ⟨ts, host, tag, content, pri.P, pri.F, pri.S⟩)

/-! ## Theorems -/

/-- The structured-data loop reaches the first stopping position: starting
anywhere at or before the first index `k` satisfying the stop test, with fuel
covering the distance to the limit, the scan returns `k + 1`. -/
theorem sdScan_first_stop (buff : List Nat) (l k : Nat) :
    ∀ fuel i, i ≤ k → k < l → l - i ≤ fuel →
      sdStop buff l k = true →
      (∀ j, i ≤ j → j < k → sdStop buff l j = false) →
      sdScan buff l fuel i = some (k + 1) := by
  intro fuel
  induction fuel with
  | zero => intro i hik hkl hfuel _ _; omega
  | succ f ih =>
    intro i hik hkl hfuel hstop hmin
    rcases Nat.eq_or_lt_of_le hik with heq | hlt
    · subst heq
      simp [sdScan, hstop]
    · have hni : sdStop buff l i = false := hmin i le_rfl hlt
      simp only [sdScan, hni, Bool.false_eq_true, if_false]
      exact ih (i + 1) hlt hkl (by omega) hstop
        (fun j hj1 hj2 => hmin j (by omega) hj2)

/-- C1: when the structured-data part begins with an opening bracket and `k`
is the first position whose closing bracket is followed by a space or by the
scan limit, the scan returns the raw span from the opening bracket through
that closing bracket — absorbing any adjacent bracketed blocks before it —
and leaves the cursor immediately after it. -/
theorem structuredData_first_stop_span (buff : List Nat) (cursor l k : Nat)
    (hbr : byteAt buff cursor = some 91)
    (hik : cursor ≤ k) (hkl : k < l)
    (hstop : sdStop buff l k = true)
    (hmin : ∀ j, cursor ≤ j → j < k → sdStop buff l j = false) :
    parseStructuredData buff cursor l =
      some (.ok (slice buff cursor (k + 1)), k + 1) := by
  have hscan := sdScan_first_stop buff l k (l - cursor) cursor hik hkl le_rfl hstop hmin
  simp [parseStructuredData, hbr, hscan]

/-- Witness for C1, covering both spec examples: with no space between them,
the two bracketed blocks of "[id a][id b] tail" come back as the single
string "[id a][id b]" with the cursor at 12; with a space between them,
"[id a] [id b] tail" yields only "[id a]" with the cursor at 6, immediately
after its closing bracket. -/
theorem structuredData_first_stop_span_witness :
    parseStructuredData (bytes "[id a][id b] tail") 0 17 =
      some (.ok (bytes "[id a][id b]"), 12) ∧
    parseStructuredData (bytes "[id a] [id b] tail") 0 18 =
      some (.ok (bytes "[id a]"), 6) := by
  constructor
  · have h := structuredData_first_stop_span (bytes "[id a][id b] tail") 0 17 11
      (by decide) (by decide) (by decide) (by decide) (by decide)
    simpa using h
  · have h := structuredData_first_stop_span (bytes "[id a] [id b] tail") 0 18 5
      (by decide) (by decide) (by decide) (by decide) (by decide)
    simpa using h

/-- C3 (divergence): on a buffer with no closing bracket among its first 10
bytes the detection entrypoint does not return the unknown classification
with an error. With at least 10 bytes ("aaaaaaaaaaaa") the loop runs out with
`err` still nil and `v` still 0, which differs from the NO_VERSION sentinel,
so the buffer is classified as structured (RFC_5424) with a nil error; with
fewer than 10 bytes ("abc") the unconditional `buff[i]` read runs past the
buffer and panics. -/
theorem detectRFC_no_bracket_divergence :
    DetectRFC (bytes "aaaaaaaaaaaa") = some (.rfc5424, none) ∧
    DetectRFC (bytes "abc") = none := by
  decide

/-- C4: a priority bracket at the start of the buffer holding one to three
digits of value `n` parses successfully into the derived triple with facility
`n / 8` and severity `n mod 8`, leaving the cursor immediately past the
closing bracket (the value bound 191 of the claim is not checked by the
scanner and is carried only as the claim's hypothesis). -/
theorem parsePriority_valid_bracket (ds rest : List Nat) (n l : Nat)
    (hdig : ∀ b ∈ ds, isDigit b = true)
    (hlen1 : 1 ≤ ds.length) (hlen3 : ds.length ≤ 3)
    (hval : digitsVal ds = n) (hrange : n ≤ 191)
    (hl : ds.length + 2 ≤ l) :
    ParsePriority (60 :: ds ++ 62 :: rest) 0 l =
      some (.ok ⟨n, n / 8, n % 8⟩, ds.length + 2) := by
  subst hval
  match ds, hlen1, hlen3 with
  | [a], _, _ =>
    have hlc : 3 ≤ l := by simpa using hl
    have ha := hdig a (by simp)
    have ha' : 48 ≤ a ∧ a ≤ 57 := by simpa [isDigit] using ha
    simp only [List.cons_append, List.nil_append, List.length_cons, List.length_nil]
    simp [ParsePriority, priScan, byteAt, ha, NewPriority, digitsVal, digitVal,
      show ¬ (a = 62) by omega, show l ≠ 0 by omega,
      show ¬ (0 + 1 ≥ l) by omega, show ¬ (0 + 2 ≥ l) by omega]
  | [a, b], _, _ =>
    have hlc : 4 ≤ l := by simpa using hl
    have ha' : 48 ≤ a ∧ a ≤ 57 := by simpa [isDigit] using hdig a (by simp)
    have hb' : 48 ≤ b ∧ b ≤ 57 := by simpa [isDigit] using hdig b (by simp)
    simp only [List.cons_append, List.nil_append, List.length_cons, List.length_nil]
    simp [ParsePriority, priScan, byteAt, NewPriority, digitsVal, digitVal,
      show isDigit a = true by simp [isDigit]; omega,
      show isDigit b = true by simp [isDigit]; omega,
      show ¬ (a = 62) by omega, show ¬ (b = 62) by omega, show l ≠ 0 by omega,
      show ¬ (0 + 1 ≥ l) by omega, show ¬ (0 + 2 ≥ l) by omega,
      show ¬ (0 + 3 ≥ l) by omega]
  | [a, b, c], _, _ =>
    have hlc : 5 ≤ l := by simpa using hl
    have ha' : 48 ≤ a ∧ a ≤ 57 := by simpa [isDigit] using hdig a (by simp)
    have hb' : 48 ≤ b ∧ b ≤ 57 := by simpa [isDigit] using hdig b (by simp)
    have hc' : 48 ≤ c ∧ c ≤ 57 := by simpa [isDigit] using hdig c (by simp)
    simp only [List.cons_append, List.nil_append, List.length_cons, List.length_nil]
    simp [ParsePriority, priScan, byteAt, NewPriority, digitsVal, digitVal,
      show isDigit a = true by simp [isDigit]; omega,
      show isDigit b = true by simp [isDigit]; omega,
      show isDigit c = true by simp [isDigit]; omega,
      show ¬ (a = 62) by omega, show ¬ (b = 62) by omega, show ¬ (c = 62) by omega,
      show l ≠ 0 by omega,
      show ¬ (0 + 1 ≥ l) by omega, show ¬ (0 + 2 ≥ l) by omega,
      show ¬ (0 + 3 ≥ l) by omega, show ¬ (0 + 4 ≥ l) by omega]

/-- Witness for C4 at the repository's fixtures: "<165>" parses to priority
165 with facility 20 and severity 5 and the cursor at 5, and "<190>" to 190
with facility 23 and severity 6. -/
theorem parsePriority_valid_bracket_witness :
    ParsePriority (bytes "<165>") 0 5 = some (.ok ⟨165, 20, 5⟩, 5) ∧
    ParsePriority (bytes "<190>") 0 5 = some (.ok ⟨190, 23, 6⟩, 5) := by
  constructor
  · have h := parsePriority_valid_bracket [49, 54, 53] [] 165 5
      (by decide) (by decide) (by decide) (by decide) (by decide) (by decide)
    simpa using h
  · have h := parsePriority_valid_bracket [49, 57, 48] [] 190 5
      (by decide) (by decide) (by decide) (by decide) (by decide) (by decide)
    simpa using h

/-- The fractional-digit loop stops exactly at the end `e` of the digit run:
every byte from `i` up to `e` is a digit, and at `e` the window of six is
exhausted, the limit is reached, or a non-digit sits. -/
theorem fracScan_digit_run (buff : List Nat) (l cursor e : Nat)
    (hel : e ≤ l) (he6 : e - cursor ≤ 6)
    (hdig : ∀ j, cursor ≤ j → j < e → isDigit (buff.getD j 0) = true)
    (hterm : e - cursor = 6 ∨ e = l ∨ isDigit (buff.getD e 0) = false) :
    ∀ fuel i, cursor ≤ i → i ≤ e → fuel = 6 - (i - cursor) →
      fracScan buff l fuel i = e := by
  intro fuel
  induction fuel with
  | zero =>
    intro i hci hie hfuel
    have : i = e := by omega
    simp [fracScan, this]
  | succ f ih =>
    intro i hci hie hfuel
    rcases Nat.eq_or_lt_of_le hie with heq | hlt
    · subst heq
      rcases hterm with h6 | hl | hnd
      · omega
      · simp [fracScan, show i ≥ l by omega]
      · by_cases hil : i ≥ l
        · simp [fracScan, hil]
        · simp only [fracScan]
          rw [if_neg hil, if_neg (by rw [hnd]; simp)]
    · have hd := hdig i hci hlt
      have hil : ¬ i ≥ l := by omega
      simp only [fracScan, hil, if_false, hd, if_true]
      exact ih (i + 1) (by omega) hlt (by omega)

/-- C5: a fractional-second field consisting of a digit run `d` of length 1
to 6 (ended by the scan window, the limit, or a non-digit) parses to the
exact decimal value digitsVal d / 10^len, and toNSec turns that value into
the left-aligned nanosecond count digitsVal d * 10^(9-len) — which is exactly
the rational value of "0." ++ d multiplied by 10^9. -/
theorem secFrac_left_aligned_nsec (buff : List Nat) (cursor l : Nat)
    (d : List Nat)
    (hlen1 : 1 ≤ d.length) (hlen6 : d.length ≤ 6)
    (hsub : slice buff cursor (cursor + d.length) = d)
    (hdig : ∀ j, cursor ≤ j → j < cursor + d.length → isDigit (buff.getD j 0) = true)
    (hl : cursor + d.length ≤ l)
    (hterm : d.length = 6 ∨ cursor + d.length = l ∨
      isDigit (buff.getD (cursor + d.length) 0) = false) :
    parseSecFrac buff cursor l =
      (.ok ((digitsVal d : ℚ) / 10 ^ d.length), cursor + d.length) ∧
    toNSec ((digitsVal d : ℚ) / 10 ^ d.length) =
      .ok (digitsVal d * 10 ^ (9 - d.length)) ∧
    ((digitsVal d * 10 ^ (9 - d.length) : ℤ) : ℚ) =
      (digitsVal d : ℚ) / 10 ^ d.length * 10 ^ 9 := by
  have hscan : fracScan buff l 6 cursor = cursor + d.length := by
    refine fracScan_digit_run buff l cursor (cursor + d.length) hl (by omega)
      hdig (by simpa using hterm) 6 cursor le_rfl (by omega) (by omega)
  have hne : d ≠ [] := by
    intro h; rw [h] at hlen1; simp at hlen1
  have hcast : ((digitsVal d * 10 ^ (9 - d.length) : ℤ) : ℚ) =
      (digitsVal d : ℚ) / 10 ^ d.length * 10 ^ 9 := by
    have h9 : (10 : ℚ) ^ 9 = 10 ^ d.length * 10 ^ (9 - d.length) := by
      rw [← pow_add]; congr 1; omega
    push_cast
    rw [h9]
    field_simp
    ring
  refine ⟨?_, ?_, hcast⟩
  · simp [parseSecFrac, hscan, hsub, hne]
  · have hr : (digitsVal d : ℚ) / 10 ^ d.length * 10 ^ 9 =
        ((digitsVal d * 10 ^ (9 - d.length) : ℤ) : ℚ) := hcast.symm
    unfold toNSec
    rw [hr, round_intCast]

/-- Witness for C5 at the spec's fixture "003": parsing the fractional field
of "003Z" consumes the three digits, yields the exact value 3/1000 — i.e.
0.003 seconds — and toNSec maps it to 3000000 nanoseconds. -/
theorem secFrac_left_aligned_nsec_witness :
    parseSecFrac (bytes "003Z") 0 4 =
      (.ok ((digitsVal (bytes "003") : ℚ) / 10 ^ (bytes "003").length),
        0 + (bytes "003").length) ∧
    toNSec ((digitsVal (bytes "003") : ℚ) / 10 ^ (bytes "003").length) =
      .ok (digitsVal (bytes "003") * 10 ^ (9 - (bytes "003").length)) ∧
    ((digitsVal (bytes "003") * 10 ^ (9 - (bytes "003").length) : ℤ) : ℚ) =
      (digitsVal (bytes "003") : ℚ) / 10 ^ (bytes "003").length * 10 ^ 9 :=
  secFrac_left_aligned_nsec (bytes "003Z") 0 4 (bytes "003")
    (by decide) (by decide) (by decide) (by decide) (by decide) (by decide)

/-- The bounded-token loop, run over a window that lies inside the limit and
holds no space, exits unfound exactly at the window's end. -/
theorem utlScan_no_space (buff : List Nat) (l mx : Nat) (hml : mx ≤ l) :
    ∀ fuel t, t ≤ mx → fuel = mx - t →
      (∀ j, t ≤ j → j < mx → buff.getD j 0 ≠ 32) →
      utlScan buff l mx fuel t = (false, mx) := by
  intro fuel
  induction fuel with
  | zero =>
    intro t htm hfuel _
    have : t = mx := by omega
    subst this
    simp [utlScan]
  | succ f ih =>
    intro t htm hfuel hns
    have htlt : t < mx := by omega
    simp only [utlScan]
    rw [if_pos (show t < mx ∧ t < l from ⟨htlt, by omega⟩),
      if_neg (hns t le_rfl htlt)]
    exact ih (t + 1) htlt (by omega) (fun j h1 h2 => hns j (by omega) h2)

/-- C6: an app-name field of 50 non-space bytes followed by a space overruns
the 48-byte window before any space is seen, so the scan fails hard with the
invalid-app-name error and the cursor advanced by exactly 48; likewise
proc-id and msg-id fail with their errors and cursors advanced by exactly 128
and 32 when no space occurs within those windows. -/
theorem boundedField_too_long :
    (∀ (buff : List Nat) (cursor l : Nat),
      (∀ j, j < 50 → buff.getD (cursor + j) 0 ≠ 32) →
      buff.getD (cursor + 50) 0 = 32 → cursor + 51 ≤ l →
      parseAppName buff cursor l = (.error .invalidAppName, cursor + 48)) ∧
    (∀ (buff : List Nat) (cursor l : Nat),
      (∀ j, j < 128 → buff.getD (cursor + j) 0 ≠ 32) → cursor + 128 ≤ l →
      parseProcId buff cursor l = (.error .invalidProcId, cursor + 128)) ∧
    (∀ (buff : List Nat) (cursor l : Nat),
      (∀ j, j < 32 → buff.getD (cursor + j) 0 ≠ 32) → cursor + 32 ≤ l →
      parseMsgId buff cursor l = (.error .invalidMsgId, cursor + 32)) := by
  refine ⟨?_, ?_, ?_⟩
  · intro buff cursor l hns _ hl
    have h := utlScan_no_space buff l (cursor + 48) (by omega) 48 cursor
      (by omega) (by omega)
      (fun j h1 h2 => by
        have := hns (j - cursor) (by omega)
        rwa [show cursor + (j - cursor) = j by omega] at this)
    simp [parseAppName, parseUpToLen, h]
  · intro buff cursor l hns hl
    have h := utlScan_no_space buff l (cursor + 128) (by omega) 128 cursor
      (by omega) (by omega)
      (fun j h1 h2 => by
        have := hns (j - cursor) (by omega)
        rwa [show cursor + (j - cursor) = j by omega] at this)
    simp [parseProcId, parseUpToLen, h]
  · intro buff cursor l hns hl
    have h := utlScan_no_space buff l (cursor + 32) (by omega) 32 cursor
      (by omega) (by omega)
      (fun j h1 h2 => by
        have := hns (j - cursor) (by omega)
        rwa [show cursor + (j - cursor) = j by omega] at this)
    simp [parseMsgId, parseUpToLen, h]

/-- Witness for C6: a 50-byte run of non-space bytes followed by a space
fails the app-name scan at cursor 48, and space-free runs fail the proc-id
and msg-id scans at cursors 128 and 32 (the repository's own too-long
fixtures). -/
theorem boundedField_too_long_witness :
    parseAppName (bytes "uuuuuuuuuuuuuuuuuuuuuuuuuuuuuuuuuuuuuuuuuuuuuuuuuu x") 0 51 = (.error .invalidAppName, 48) ∧
    parseProcId (bytes "aaaaaaaaaaaaaaaaaaaaaaaaaaaaaaaaaaaaaaaaaaaaaaaaaaaaaaaaaaaaaaaaaaaaaaaaaaaaaaaaaaaaaaaaaaaaaaaaaaaaaaaaaaaaaaaaaaaaaaaaaaaaaaaax") 0 129 = (.error .invalidProcId, 128) ∧
    parseMsgId (bytes "aaaaaaaaaaaaaaaaaaaaaaaaaaaaaaaax") 0 33 = (.error .invalidMsgId, 32) := by
  refine ⟨?_, ?_, ?_⟩
  · have h := boundedField_too_long.1 (bytes "uuuuuuuuuuuuuuuuuuuuuuuuuuuuuuuuuuuuuuuuuuuuuuuuuu x") 0 51
      (by decide) (by decide) (by decide)
    simpa using h
  · have h := boundedField_too_long.2.1 (bytes "aaaaaaaaaaaaaaaaaaaaaaaaaaaaaaaaaaaaaaaaaaaaaaaaaaaaaaaaaaaaaaaaaaaaaaaaaaaaaaaaaaaaaaaaaaaaaaaaaaaaaaaaaaaaaaaaaaaaaaaaaaaaaaaax") 0 129
      (by decide) (by decide)
    simpa using h
  · have h := boundedField_too_long.2.2 (bytes "aaaaaaaaaaaaaaaaaaaaaaaaaaaaaaaax") 0 33
      (by decide) (by decide)
    simpa using h

/-- C7 (divergence): a token whose length is exactly the bound, followed by a
space, is rejected, not accepted: the scan window `to < cursor + maxLen`
never examines the space sitting at offset exactly maxLen, so a 48-byte
app-name (and likewise a 128-byte proc-id and a 32-byte msg-id) fails with
the too-long error, while a 47-byte app-name is accepted — the effective
bounds are 47/127/31, not 48/128/32. -/
theorem exactBound_token_rejected :
    parseAppName (bytes "aaaaaaaaaaaaaaaaaaaaaaaaaaaaaaaaaaaaaaaaaaaaaaaa m") 0 50 = (.error .invalidAppName, 48) ∧
    parseAppName (bytes "aaaaaaaaaaaaaaaaaaaaaaaaaaaaaaaaaaaaaaaaaaaaaaa m") 0 49 = (.ok (bytes "aaaaaaaaaaaaaaaaaaaaaaaaaaaaaaaaaaaaaaaaaaaaaaa"), 47) ∧
    parseProcId (bytes "aaaaaaaaaaaaaaaaaaaaaaaaaaaaaaaaaaaaaaaaaaaaaaaaaaaaaaaaaaaaaaaaaaaaaaaaaaaaaaaaaaaaaaaaaaaaaaaaaaaaaaaaaaaaaaaaaaaaaaaaaaaaaaaa m") 0 130 = (.error .invalidProcId, 128) ∧
    parseMsgId (bytes "aaaaaaaaaaaaaaaaaaaaaaaaaaaaaaaa m") 0 34 = (.error .invalidMsgId, 32) := by
  decide

/-- C8 (counterexample): at a non-digit byte under the cursor the version
scan returns the NO_VERSION sentinel with a nil error — not the
ErrVersionNotFound condition the claim asserts (the repository's own
TestParseVersion "non digit" case expects exactly this nil error). -/
theorem version_nonDigit_nil_error_cex :
    ParseVersion (bytes "<123>a") 5 6 = some (.ok NO_VERSION, 6) ∧
    (Except.ok NO_VERSION : Except GoErr Int) ≠ .error .versionNotFound := by
  decide

/-- C8 (amended): a non-digit byte under the cursor (inside both the limit
and the buffer) makes the version scan return the NO_VERSION sentinel with a
nil error and the cursor advanced one byte; the not-found error is reserved
for a cursor at or past the limit. It is this sentinel value, not an error
condition, that format detection maps to the legacy classification, as on the
repository's legacy fixture. -/
theorem version_nonDigit_sentinel :
    (∀ (buff : List Nat) (cursor l : Nat), cursor < l → cursor < buff.length →
      isDigit (buff.getD cursor 0) = false →
      ParseVersion buff cursor l = some (.ok NO_VERSION, cursor + 1)) ∧
    DetectRFC (bytes "<34>Oct 11 22:14:15 ...") = some (.rfc3164, none) := by
  constructor
  · intro buff cursor l h1 h2 h3
    have hlt : ¬ cursor ≥ l := by omega
    obtain ⟨b, hb⟩ : ∃ b, buff.get? cursor = some b :=
      ⟨_, List.get?_eq_get h2⟩
    have hgd : buff.getD cursor 0 = b := by
      rw [List.getD_eq_getElem?_getD, ← List.get?_eq_getElem?, hb]
      rfl
    simp only [ParseVersion, byteAt]
    rw [if_neg hlt, hb]
    simp [hgd ▸ h3]
  · decide

/-- Witness for C8's amended statement at the repository's "non digit"
fixture: the byte after the bracket of "<123>a" is a non-digit, and the scan
returns the sentinel with a nil error, cursor moved from 5 to 6. -/
theorem version_nonDigit_sentinel_witness :
    ParseVersion (bytes "<123>a") 5 6 = some (.ok NO_VERSION, 5 + 1) :=
  version_nonDigit_sentinel.1 (bytes "<123>a") 5 6
    (by decide) (by decide) (by decide)

/-- C9 (divergence): a tag with no colon or space terminator does not stop at
the scan limit. On "apache2" (limit 7) the loop runs off the end of the
buffer and panics (`none`); with a limit of 3 on "abcdef:x" the loop reads
bytes at positions 3..6 — at and beyond the scan limit — and returns the tag
"abcdef" with the cursor at 7, far past the limit. -/
theorem tag_unterminated_overruns_limit :
    parseTag3164 (bytes "apache2") 0 7 = none ∧
    parseTag3164 (bytes "abcdef:x") 0 3 = some (bytes "abcdef", 7) := by
  decide

/-- C10 (divergence): the legacy Parse is not total. On a buffer that ends
immediately after the hostname the header parse consumes every byte, and the
unchecked `p.buff[p.cursor]` space test at src/rfc3164/rfc3164.go line 103
indexes one past the end of the buffer — an index-out-of-range panic — for
every current year. -/
theorem parse3164_panics_after_hostname :
    ∀ nowYear : Nat,
      Parse3164 nowYear (bytes "<34>Oct 11 22:14:15 mymachine") = none :=
  fun _ => rfl

end Syslog
